import Mathlib

/- Verification development for scripts/telegram-bot.py: a shallow embedding
of the transcript store (Session), the compaction flush, the tool-dispatch
step of the agent loop, the cron scheduler, and the session-key
sanitisation, together with theorems settling the specification claims. -/

/-- A tool call as it appears in a reasoning-service response message:
the call id, the function name, and the function arguments. The raw JSON
argument string is modelled in parsed form as a string-to-string key/value
list; none models a string on which json.loads raises (non-string JSON
argument values are outside the model). -/
structure ToolCall where
  id : String
  name : String
  args : Option (List (String × String))
deriving DecidableEq

/-- One parsed JSONL transcript record (one line of a Session file). The
keys this program writes are role, content, tool_calls, tool_call_id, the
internal timestamp _ts and the internal _compact_marker flag. Internal
keys (leading underscore) other than _compact_marker never influence
load_context and are omitted from the model. An absent key is none / []. -/
structure Entry where
  role : Option String
  content : Option String
  toolCalls : List ToolCall
  toolCallId : Option String
  compactMarker : Bool
deriving DecidableEq

/-- A reconstructed message: a role-bearing transcript record with its
internal (underscore-prefixed) keys stripped (load_context lines 256-261). -/
structure Msg where
  role : String
  content : Option String
  toolCalls : List ToolCall
  toolCallId : Option String
deriving DecidableEq

/-- The record appended by Session.clear: a bare compaction marker
(its _ts stamp is internal and not modelled). -/
def markerEntry : Entry := ⟨none, none, [], none, true⟩

/-- A plain role/content record, as appended by Session.append for user
and assistant turns. -/
def mkRoleContent (role content : String) : Entry :=
  ⟨some role, some content, [], none, false⟩

/-- Session.clear (lines 278-280): append a compaction marker; nothing is
deleted from the file. -/
def Session.clear (file : List Entry) : List Entry := file ++ [markerEntry]

/-- The scan of load_context lines 238-254: walk the parsed entries in
order, resetting the collected list at every record whose _compact_marker
field is truthy, so that the result is exactly the segment strictly after
the last marker. -/
def scanEntries (acc : List Entry) : List Entry → List Entry
  | [] => acc
  | e :: rest => scanEntries (if e.compactMarker then [] else acc ++ [e]) rest

/-- Entries strictly after the last compaction marker (load_context lines
238-254, combining the start_idx bookkeeping with the final slice). -/
def afterLastMarker (file : List Entry) : List Entry := scanEntries [] file

/-- Keep a record only when it bears a role, stripping internal keys
(load_context lines 256-261). -/
def toMsg (e : Entry) : Option Msg :=
  match e.role with
  | some r => some ⟨r, e.content, e.toolCalls, e.toolCallId⟩
  | none => none

/-- The role-bearing records of a list of entries, as messages. -/
def roleMessages (entries : List Entry) : List Msg := entries.filterMap toMsg

/-- Python list slicing l[-k:] for a natural k (load_context line 265):
for k = 0 the slice bound -0 is 0, so the whole list is kept; otherwise
the last k elements are kept. -/
def lastSlice (k : ℕ) (l : List α) : List α :=
  if k = 0 then l else l.drop (l.length - k)

/-- The tool-result pruning loop of load_context lines 270-274: the first
cutoff messages have their content replaced by "[truncated]" when their
role is tool and their content is longer than the constant 100; everything
from position cutoff on is untouched. -/
def truncateOld : ℕ → List Msg → List Msg
  | _, [] => []
  | 0, l => l
  | c + 1, m :: rest =>
    (if m.role == "tool" && 100 < (m.content.getD "").length then
      { m with content := some "[truncated]" }
    else m) :: truncateOld c rest

/-- The guarded pruning stage of load_context lines 268-274: it runs only
when prune_tool_results_after is positive and the message list is longer
than it, with cutoff = length - prune_after. -/
def truncatePass (pruneAfter : ℕ) (messages : List Msg) : List Msg :=
  if 0 < pruneAfter ∧ pruneAfter < messages.length then
    truncateOld (messages.length - pruneAfter) messages
  else messages

/-- Session.load_context (lines 226-276): drop everything up to the last
compaction marker, keep role-bearing records with internal keys stripped,
cap to the most recent max_messages via the Python slice, then apply the
tool-result pruning stage. The two policy values read from the config are
the parameters maxMsgs (max_messages) and pruneAfter
(prune_tool_results_after); unparsable and blank lines are already absent
from the parsed entry list. -/
def load_context (maxMsgs pruneAfter : ℕ) (file : List Entry) : List Msg :=
  let entries := afterLastMarker file
  let messages := roleMessages entries
  let messages := if maxMsgs < messages.length then lastSlice maxMsgs messages else messages
  truncatePass pruneAfter messages

/-- Modelled from the spec wording of claim C1 (truncation stage only):
replace the content of exactly those records that are tool-results, lie
strictly older than the final keepRecent records, and whose content
exceeds the size threshold, the threshold being a parameter. -/
def truncateOldSpec : ℕ → ℕ → List Msg → List Msg
  | _, _, [] => []
  | 0, _, l => l
  | c + 1, t, m :: rest =>
    (if m.role == "tool" && t < (m.content.getD "").length then
      { m with content := some "[truncated]" }
    else m) :: truncateOldSpec c t rest

/-- Modelled from the spec wording of claim C1: the reconstruction
pipeline in which both the tail length keepRecent and the size threshold
are policy parameters supplied by the caller, and every record strictly
older than the final keepRecent records of the reconstructed list is
truncated when it is an oversized tool-result. -/
def load_context_spec (maxMsgs keepRecent threshold : ℕ) (file : List Entry) : List Msg :=
  let messages := roleMessages (afterLastMarker file)
  let messages := if maxMsgs < messages.length then lastSlice maxMsgs messages else messages
  truncateOldSpec (messages.length - keepRecent) threshold messages

/-- A reasoning-service (DeepSeek chat) response message: optional text
content and a possibly empty tool-call list (absent tool_calls is []). -/
structure ApiMsg where
  content : Option String
  toolCalls : List ToolCall
deriving DecidableEq

/-- Outcome of one _ds_request call: either the request raised an
exception with the given text, or it returned a response message. -/
inductive DSOutcome where
  | raised (e : String)
  | ok (m : ApiMsg)
deriving DecidableEq

/-- Character-wise prefix test, the model of str.startswith. -/
def startsWithChars : List Char → List Char → Bool
  | [], _ => true
  | _ :: _, [] => false
  | a :: as, b :: bs => a == b && startsWithChars as bs

/-- str.startswith(pre) on strings, written structurally so that it
evaluates on concrete inputs. -/
def str_starts_with (s pre : String) : Bool := startsWithChars pre.toList s.toList

/-- tool_write_memory (lines 935-959), validation logic: target must be
memory or daily, content must be non-empty and at most 10000 characters.
The filesystem append is modelled as succeeding; the success text names
the file written (the daily file name, which embeds the current date, is
abstracted). -/
def tool_write_memory (content target : String) : String :=
  if ¬ (target = "memory" ∨ target = "daily") then
    "ERROR: target must be 'memory' or 'daily'"
  else if content = "" then
    "ERROR: content is required"
  else if 10000 < content.length then
    "ERROR: content too long"
  else if target = "daily" then
    "Written to daily log"
  else
    "Written to MEMORY.md"

/-- Whether executing one write_memory tool call during compaction counts
as a failure (lines 1638-1649): the argument JSON fails to parse or has
no content key (the except branch), or tool_write_memory returns an
ERROR-prefixed result. -/
def writeCallFails (tc : ToolCall) : Bool :=
  match tc.args with
  | none => true
  | some kvs =>
    match kvs.lookup "content" with
    | none => true
    | some c => str_starts_with (tool_write_memory c ((kvs.lookup "target").getD "memory")) "ERROR"

/-- _compact_session (lines 1599-1667), reduced to its decision: given
the reconstructed context and the outcome of the summary request, is a
compaction marker appended (session.clear called)? An empty context is
cleared immediately; otherwise the marker is appended exactly when
memory_flush_ok ends up True: with tool calls present, when the number of
write_memory calls is positive and the number of failing ones is zero;
with no tool calls, when a non-empty content summary is persisted via
tool_write_memory to the daily log without error. -/
def compact_marker_inserted (messages : List Msg) (resp : DSOutcome) : Bool :=
  if messages.isEmpty then true
  else
    match resp with
    | .raised _ => false
    | .ok m =>
      if m.toolCalls.isEmpty then
        match m.content with
        | some c =>
          if c = "" then false
          else !(str_starts_with (tool_write_memory c "daily") "ERROR")
        | none => false
      else
        let wm := m.toolCalls.filter (fun tc => tc.name == "write_memory")
        decide (0 < wm.length) && decide ((wm.filter writeCallFails).length = 0)

/-- Modelled from the spec wording of claim C2, as stated: a marker is
inserted if at least one write_memory tool call succeeds, or if no tool
calls were returned but a plain-text summary was durably persisted as a
fallback; if neither happens, no marker is inserted. -/
def compact_marker_claimed (resp : DSOutcome) : Bool :=
  match resp with
  | .raised _ => false
  | .ok m =>
    if m.toolCalls.isEmpty then
      match m.content with
      | some c => !(c = "") && !(str_starts_with (tool_write_memory c "daily") "ERROR")
      | none => false
    else
      m.toolCalls.any (fun tc => tc.name == "write_memory" && !(writeCallFails tc))

/-- The amended claim C2 predicate: with tool calls present, a marker
requires at least one write_memory call and that every write_memory call
succeeds; with no tool calls, a persisted non-empty summary; an empty
reconstructed context is compacted unconditionally. -/
def compact_marker_amended (messages : List Msg) (resp : DSOutcome) : Bool :=
  messages.isEmpty ||
  match resp with
  | .raised _ => false
  | .ok m =>
    if m.toolCalls.isEmpty then
      match m.content with
      | some c => !(c = "") && !(str_starts_with (tool_write_memory c "daily") "ERROR")
      | none => false
    else
      m.toolCalls.any (fun tc => tc.name == "write_memory") &&
      m.toolCalls.all (fun tc => !(tc.name == "write_memory") || !(writeCallFails tc))

/-- The keys of TOOL_DISPATCH (lines 1527-1545): the thirteen native
tool executors. -/
def TOOL_DISPATCH_NAMES : List String :=
  ["spawn_agent", "swarm_status", "read_logs", "kill_task", "view_queue",
   "active_tasks", "completed_tasks", "shell_command", "write_memory",
   "read_memory", "list_prs", "view_pr", "merge_pr"]

/-- WEBHOOK_ALLOWED_TOOL_NAMES (lines 1547-1558). -/
def WEBHOOK_ALLOWED_TOOL_NAMES : List String :=
  ["spawn_agent", "swarm_status", "read_logs", "view_queue", "active_tasks",
   "completed_tasks", "write_memory", "read_memory", "list_prs", "view_pr"]

/-- MCPManager.is_mcp_tool (lines 1318-1322), with servers the registered
server names. -/
def is_mcp_tool (servers : List String) (name : String) : Bool :=
  str_starts_with name "mcp_" && servers.any (fun sn => str_starts_with name ("mcp_" ++ sn ++ "_"))

/-- Outcome of running a tool executor: a returned string or a raised
exception with the given text. -/
inductive ExecOutcome where
  | ret (s : String)
  | raised (e : String)
deriving DecidableEq

/-- The allowed-tools guard of agent_respond line 1725: blocked exactly
when an allowed set was supplied and the name is not in it. -/
def blockedBy : Option (List String) → String → Bool
  | none, _ => false
  | some a, n => !(a.contains n)

/-- The per-call result text of agent_respond lines 1714-1738: the
allowed-tools guard fails closed with an ERROR text before any executor;
then a native executor, then MCP routing (exceptions become ERROR text);
an unrecognised name yields the fixed unknown-tool text. The executors
are supplied as oracles from name and parsed arguments to an outcome. -/
def toolCallResult (allowed : Option (List String)) (servers : List String)
    (execNative : String → List (String × String) → ExecOutcome)
    (execMcp : String → List (String × String) → ExecOutcome)
    (tc : ToolCall) : String :=
  let fnArgs := tc.args.getD []
  if blockedBy allowed tc.name then
    "ERROR: tool '" ++ tc.name ++ "' is not allowed in this context"
  else if TOOL_DISPATCH_NAMES.contains tc.name then
    match execNative tc.name fnArgs with
    | .ret s => s
    | .raised e => "ERROR: " ++ e
  else if is_mcp_tool servers tc.name then
    match execMcp tc.name fnArgs with
    | .ret s => s
    | .raised e => "ERROR: " ++ e
  else
    "Unknown tool: " ++ tc.name

/-- Which branch of lines 1725-1738 invokes an executor: false for the
blocked and unknown-tool branches, true for the native and MCP ones. -/
def executorRuns (allowed : Option (List String)) (servers : List String)
    (name : String) : Bool :=
  if blockedBy allowed name then false
  else TOOL_DISPATCH_NAMES.contains name || is_mcp_tool servers name

/-- A record appended for one tool result (lines 1748-1752): role tool,
the originating call id, and the result text capped at 3000 characters. -/
def mkToolEntry (callId text : String) : Entry :=
  ⟨some "tool", some (text.take 3000), [], some callId, false⟩

/-- The assistant record appended when the model requests tool calls
(lines 1704-1709). -/
def mkAssistantWithTools (content : String) (tcs : List ToolCall) : Entry :=
  ⟨some "assistant", some content, tcs, none, false⟩

/-- The collaborators of one agent_respond invocation: the reasoning
service (indexed by how many calls were already made in this invocation)
and the tool executors, plus the allowed-tool set and MCP server names. -/
structure LoopEnv where
  oracle : ℕ → DSOutcome
  allowed : Option (List String)
  servers : List String
  execNative : String → List (String × String) → ExecOutcome
  execMcp : String → List (String × String) → ExecOutcome

/-- The iteration loop of agent_respond (lines 1687-1776), with fuel the
remaining iterations (5 at entry) and calls the number of reasoning-
service calls already made. Returns the final reply text, the transcript,
and the total number of reasoning-service calls made. A raised service
call appends and returns the error notice at once; a tool-call response
appends the assistant record and one result record per call, then loops;
a plain response appends and returns its stripped text (or the fixed
no-response text); exhausted fuel appends and returns the fixed notice.
Sending over the chat transport is outside the model. -/
def agentLoopAux (env : LoopEnv) : ℕ → ℕ → List Entry → String × List Entry × ℕ
  | 0, calls, s =>
    ("(max tool iterations reached)",
     s ++ [mkRoleContent "assistant" "(max tool iterations reached)"], calls)
  | fuel + 1, calls, s =>
    match env.oracle calls with
    | .raised e =>
      let reply := "(DeepSeek API error: " ++ e ++ ")"
      (reply, s ++ [mkRoleContent "assistant" reply], calls + 1)
    | .ok m =>
      if m.toolCalls.isEmpty then
        let stripped := (m.content.getD "").trim
        let reply := if stripped = "" then "(no response)" else stripped
        (reply, s ++ [mkRoleContent "assistant" reply], calls + 1)
      else
        let assistantE := mkAssistantWithTools (m.content.getD "") m.toolCalls
        let toolEs := m.toolCalls.map (fun tc =>
          mkToolEntry tc.id (toolCallResult env.allowed env.servers env.execNative env.execMcp tc))
        agentLoopAux env fuel (calls + 1) (s ++ assistantE :: toolEs)

/-- Splitting a character list at every occurrence of a separator, the
model of str.split(sep) for a one-character separator (empty pieces are
kept, as in Python). -/
def splitOnChar (sep : Char) : List Char → List (List Char)
  | [] => [[]]
  | c :: rest =>
    match splitOnChar sep rest with
    | [] => [[c]]
    | h :: t => if c = sep then [] :: h :: t else (c :: h) :: t

/-- Rejoining the pieces after the first one, so that the head of
splitOnChar together with this models str.split(sep, 1). -/
def intercalateChar (sep : Char) : List (List Char) → List Char
  | [] => []
  | [x] => x
  | x :: xs => x ++ sep :: intercalateChar sep xs

/-- Whitespace splitting with empty pieces dropped: the model of
str.split() with no argument (leading and trailing whitespace ignored,
runs of whitespace collapsed), hence also of str.strip().split(). -/
def splitWsAux (cur : List Char) : List Char → List (List Char)
  | [] => if cur = [] then [] else [cur.reverse]
  | c :: rest =>
    if c.isWhitespace then
      if cur = [] then splitWsAux [] rest else cur.reverse :: splitWsAux [] rest
    else splitWsAux (c :: cur) rest

/-- str.split() on a character list. -/
def splitWs (l : List Char) : List (List Char) := splitWsAux [] l

/-- str.strip() on a character list. -/
def trimChars (l : List Char) : List Char :=
  ((l.dropWhile Char.isWhitespace).reverse.dropWhile Char.isWhitespace).reverse

/-- Parsing a non-empty run of ASCII digits, the digits part of int(). -/
def parseDigits (l : List Char) : Option ℕ :=
  if l = [] ∨ ¬ l.all Char.isDigit then none
  else some (l.foldl (fun a c => a * 10 + (c.toNat - 48)) 0)

/-- The model of Python int() on an already stripped string: an optional
leading minus sign followed by digits, none when int() would raise
ValueError (the plus sign, underscores and non-ASCII digits accepted by
Python are outside the model; the cron fields at issue never use them). -/
def parseInt? : List Char → Option Int
  | '-' :: rest => (parseDigits rest).map (fun n => -(n : Int))
  | l => (parseDigits l).map (fun n => (n : Int))

/-- The body of the per-part loop of _cron_field_matches (lines
1788-1825), for one already comma-split part: wildcard, step, inclusive
range (with wrap-around when the lower bound exceeds the upper), or a
single value; for the day-of-week field (maxVal 7) the literal 7 is
normalised to 0. A part that fails to parse matches nothing. -/
def partMatches (part : List Char) (value maxVal : Int) : Bool :=
  if part = ['*'] then true
  else if part.take 2 = ['*', '/'] then
    match parseInt? (part.drop 2) with
    | some step => decide (0 < step) && decide (value % step = 0)
    | none => false
  else
    match splitOnChar '-' part with
    | lo :: hi :: hiRest =>
      match parseInt? lo, parseInt? (intercalateChar '-' (hi :: hiRest)) with
      | some lo₀, some hi₀ =>
        let loN : Int := if maxVal = 7 ∧ lo₀ = 7 then 0 else lo₀
        let hiN : Int := if maxVal = 7 ∧ hi₀ = 7 then 0 else hi₀
        (decide (loN ≤ hiN) && decide (loN ≤ value) && decide (value ≤ hiN)) ||
        (decide (hiN < loN) && (decide (loN ≤ value) || decide (value ≤ hiN)))
      | _, _ => false
    | _ =>
      match parseInt? part with
      | some p => decide ((if maxVal = 7 ∧ p = 7 then 0 else p) = value)
      | none => false

/-- _cron_field_matches (lines 1783-1826): the field matches when any of
its comma-separated, stripped parts matches. -/
def cron_field_matches (field : List Char) (value maxVal : Int) : Bool :=
  (splitOnChar ',' field).any (fun p => partMatches (trimChars p) value maxVal)

/-- The components of a Python timezone-aware datetime that the scheduler
reads; weekday follows datetime.weekday() (Monday 0 .. Sunday 6). -/
structure PyDateTime where
  year : ℕ
  month : ℕ
  day : ℕ
  hour : ℕ
  minute : ℕ
  weekday : ℕ
deriving DecidableEq

/-- _cron_matches (lines 1829-1856): a five-field expression, evaluated
field-wise; the day-of-week value handed to the matcher is the cron
convention (Sunday 0) obtained from (weekday + 1) % 7, as computed by the
final vals[4] assignment. A malformed expression (not five fields after
whitespace splitting) matches nothing. -/
def cron_matches (expr : String) (t : PyDateTime) : Bool :=
  match splitWs expr.toList with
  | [minF, hourF, domF, monF, dowF] =>
    cron_field_matches minF (t.minute : Int) 59 &&
    cron_field_matches hourF (t.hour : Int) 23 &&
    cron_field_matches domF (t.day : Int) 31 &&
    cron_field_matches monF (t.month : Int) 12 &&
    cron_field_matches dowF (((t.weekday + 1) % 7 : ℕ) : Int) 7
  | _ => false

/-- Zero-padded two-digit decimal, as in strftime %M, %H, %d, %m. -/
def pad2 (n : ℕ) : String :=
  if n < 10 then "0" ++ toString n else toString n

/-- Zero-padded four-digit decimal, as in strftime %Y. -/
def pad4 (n : ℕ) : String :=
  if n < 10 then "000" ++ toString n
  else if n < 100 then "00" ++ toString n
  else if n < 1000 then "0" ++ toString n
  else toString n

/-- The scheduler minute key now.strftime("%Y-%m-%d %H:%M") (line 1953). -/
def minute_key (t : PyDateTime) : String :=
  pad4 t.year ++ "-" ++ pad2 t.month ++ "-" ++ pad2 t.day ++ " " ++
    pad2 t.hour ++ ":" ++ pad2 t.minute

/-- One configured cron job (id, schedule, action, enabled flag), as read
from CFG cron_jobs. -/
structure CronJob where
  id : String
  schedule : String
  action : String
  enabled : Bool
deriving DecidableEq

/-- The per-job guard of one pass of _cron_loop (lines 1955-1967): the
job fires when it is enabled, none of id, schedule and action is empty,
its last recorded minute key differs from the current one, and its
schedule matches the current time. -/
def jobShouldFire (lastRun : String → Option String) (now : PyDateTime)
    (job : CronJob) : Bool :=
  job.enabled &&
  !(job.id = "" || job.schedule = "" || job.action = "") &&
  !(lastRun job.id == some (minute_key now)) &&
  cron_matches job.schedule now

/-- One pass over the job list in _cron_loop (lines 1955-1985): jobs are
checked in order; each firing job is recorded under its id in last_run
with the current minute key before later jobs are checked. Returns the
ids fired this pass and the updated last_run map. -/
def cronTick : List CronJob → (String → Option String) → PyDateTime →
    List String × (String → Option String)
  | [], lastRun, _ => ([], lastRun)
  | job :: rest, lastRun, now =>
    if jobShouldFire lastRun now job then
      let lastRun2 := fun k => if k = job.id then some (minute_key now) else lastRun k
      let (fired, lastRunF) := cronTick rest lastRun2 now
      (job.id :: fired, lastRunF)
    else cronTick rest lastRun now

/-- The character class kept by Session.__init__ line 194: the regex
replaces every character outside [a-zA-Z0-9_-] with an underscore. -/
def isSafeChar (c : Char) : Bool :=
  ('a' ≤ c && c ≤ 'z') || ('A' ≤ c && c ≤ 'Z') || ('0' ≤ c && c ≤ '9') ||
    c == '_' || c == '-'

/-- The session-key sanitisation of Session.__init__ (line 194):
re.sub replaces each character outside the class with an underscore. -/
def sanitize_session_key (key : String) : String :=
  String.mk (key.toList.map (fun c => if isSafeChar c then c else '_'))

/-- The transcript file name {safe}.jsonl (line 195), relative to the
sessions directory. -/
def sessionFileName (key : String) : String := sanitize_session_key key ++ ".jsonl"

/-- The lock file name {safe}.lock (line 196), relative to the sessions
directory. -/
def lockFileName (key : String) : String := sanitize_session_key key ++ ".lock"

theorem scanEntries_append (acc xs ys : List Entry) :
    scanEntries acc (xs ++ ys) = scanEntries (scanEntries acc xs) ys := by
  induction xs generalizing acc with
  | nil => rfl
  | cons e rest ih =>
    simp only [List.cons_append, scanEntries]
    exact ih _

theorem scanEntries_no_marker (acc l : List Entry)
    (h : l.all (fun e => !e.compactMarker) = true) :
    scanEntries acc l = acc ++ l := by
  induction l generalizing acc with
  | nil => simp [scanEntries]
  | cons e rest ih =>
    simp only [List.all_cons, Bool.and_eq_true, Bool.not_eq_true'] at h
    simp [scanEntries, h.1, ih _ (by simpa using h.2)]

theorem afterLastMarker_clear (file : List Entry) :
    afterLastMarker (Session.clear file) = [] := by
  unfold afterLastMarker Session.clear
  rw [scanEntries_append]
  rfl

theorem afterLastMarker_no_marker (l : List Entry)
    (h : l.all (fun e => !e.compactMarker) = true) :
    afterLastMarker l = l := by
  unfold afterLastMarker
  rw [scanEntries_no_marker [] l h]
  rfl

theorem afterLastMarker_clear_append (file post : List Entry)
    (h : post.all (fun e => !e.compactMarker) = true) :
    afterLastMarker (Session.clear file ++ post) = post := by
  unfold afterLastMarker Session.clear
  rw [List.append_assoc, scanEntries_append]
  have h1 : scanEntries (scanEntries [] file) ([markerEntry] ++ post) =
      scanEntries [] post := by
    rw [scanEntries_append]
    rfl
  rw [h1, scanEntries_no_marker [] post h]
  rfl

/-- Claim C4: after Session.clear appends a compaction marker record (no
stored record is deleted), reconstruction returns the empty list, and
after further marker-free appends it returns exactly what it would return
for those appended records alone. -/
theorem C4_compaction_resets_reconstruction (maxMsgs pruneAfter : ℕ)
    (file post : List Entry)
    (h : post.all (fun e => !e.compactMarker) = true) :
    Session.clear file = file ++ [markerEntry] ∧
    load_context maxMsgs pruneAfter (Session.clear file) = [] ∧
    load_context maxMsgs pruneAfter (Session.clear file ++ post) =
      load_context maxMsgs pruneAfter post := by
  refine ⟨rfl, ?_, ?_⟩
  · unfold load_context
    rw [afterLastMarker_clear]
    simp [roleMessages, truncatePass]
  · unfold load_context
    rw [afterLastMarker_clear_append file post h, afterLastMarker_no_marker post h]

theorem C4_witness :
    ([mkRoleContent "user" "b"] : List Entry).all (fun e => !e.compactMarker) = true ∧
    (Session.clear [mkRoleContent "user" "a"] = [mkRoleContent "user" "a"] ++ [markerEntry] ∧
     load_context 100 15 (Session.clear [mkRoleContent "user" "a"]) = [] ∧
     load_context 100 15 (Session.clear [mkRoleContent "user" "a"] ++ [mkRoleContent "user" "b"]) =
       load_context 100 15 [mkRoleContent "user" "b"]) :=
  ⟨by decide, C4_compaction_resets_reconstruction 100 15 _ _ (by decide)⟩

theorem truncateOldSpec_zero (t : ℕ) (l : List Msg) : truncateOldSpec 0 t l = l := by
  cases l <;> rfl

theorem truncateOld_eq_spec (c : ℕ) (l : List Msg) :
    truncateOld c l = truncateOldSpec c 100 l := by
  induction l generalizing c with
  | nil => cases c <;> rfl
  | cons m rest ih =>
    cases c with
    | zero => rfl
    | succ c =>
      simp only [truncateOld, truncateOldSpec]
      rw [ih]

theorem truncatePass_eq_spec (keepRecent : ℕ) (msgs : List Msg) (h : 0 < keepRecent) :
    truncatePass keepRecent msgs = truncateOldSpec (msgs.length - keepRecent) 100 msgs := by
  unfold truncatePass
  by_cases hc : keepRecent < msgs.length
  · rw [if_pos ⟨h, hc⟩, truncateOld_eq_spec]
  · rw [if_neg (fun hh => hc hh.2)]
    have h0 : msgs.length - keepRecent = 0 := by omega
    rw [h0, truncateOldSpec_zero]

/-- Claim C1, amended: with the size threshold fixed at the constant 100
characters (it is not a caller-supplied policy value) and a positive
caller-supplied tail length keepRecent (prune_tool_results_after),
reconstruction replaces the content of exactly the tool-result records
strictly older than the final keepRecent records whose content exceeds
100 characters; records inside the tail stay untouched regardless of
size. -/
theorem C1_amended_truncation (maxMsgs keepRecent : ℕ) (file : List Entry)
    (h : 0 < keepRecent) :
    load_context maxMsgs keepRecent file = load_context_spec maxMsgs keepRecent 100 file := by
  simp only [load_context, load_context_spec]
  exact truncatePass_eq_spec keepRecent _ h

/-- A transcript with one tool-result record of 20 characters followed by
a user record. -/
def c1file₁ : List Entry :=
  [⟨some "tool", some "12345678901234567890", [], some "a", false⟩,
   mkRoleContent "user" "ok"]

/-- A transcript with a single tool-result record of 120 characters. -/
def c1file₂ : List Entry :=
  [⟨some "tool", some (String.mk (List.replicate 120 'x')), [], some "a", false⟩]

set_option maxRecDepth 4000

/-- Counterexample to claim C1 as stated: with a caller-supplied size
threshold of 10 the code does not truncate a 20-character tool result
outside the tail (its threshold is the constant 100), and with tail
length 0 the code truncates nothing at all while the claimed behaviour
truncates every oversized old tool result. -/
theorem C1_counterexample :
    load_context 100 1 c1file₁ ≠ load_context_spec 100 1 10 c1file₁ ∧
    load_context 100 0 c1file₂ ≠ load_context_spec 100 0 100 c1file₂ := by decide

theorem C1_witness :
    0 < 15 ∧ load_context 100 15 c1file₁ = load_context_spec 100 15 100 c1file₁ :=
  ⟨by decide, C1_amended_truncation 100 15 c1file₁ (by decide)⟩

theorem truncateOld_length (c : ℕ) (l : List Msg) :
    (truncateOld c l).length = l.length := by
  induction l generalizing c with
  | nil => cases c <;> rfl
  | cons m rest ih =>
    cases c with
    | zero => rfl
    | succ c => simp [truncateOld, ih]

theorem truncateOld_map_role (c : ℕ) (l : List Msg) :
    (truncateOld c l).map Msg.role = l.map Msg.role := by
  induction l generalizing c with
  | nil => cases c <;> rfl
  | cons m rest ih =>
    cases c with
    | zero => rfl
    | succ c =>
      simp only [truncateOld, List.map_cons, ih]
      by_cases hm : (m.role == "tool" && 100 < (m.content.getD "").length) = true
      · simp [hm]
      · simp [hm]

theorem truncatePass_length (pruneAfter : ℕ) (l : List Msg) :
    (truncatePass pruneAfter l).length = l.length := by
  unfold truncatePass
  by_cases hc : 0 < pruneAfter ∧ pruneAfter < l.length
  · rw [if_pos hc, truncateOld_length]
  · rw [if_neg hc]

theorem truncatePass_map_role (pruneAfter : ℕ) (l : List Msg) :
    (truncatePass pruneAfter l).map Msg.role = l.map Msg.role := by
  unfold truncatePass
  by_cases hc : 0 < pruneAfter ∧ pruneAfter < l.length
  · rw [if_pos hc, truncateOld_map_role]
  · rw [if_neg hc]

/-- Claim C5, amended: for a positive maxMessages, a transcript with more
than maxMessages role-bearing records after the last compaction marker
reconstructs to exactly maxMessages records — the most recent ones, in
their original stored order (the independent tool-result pruning stage
may replace contents of old oversized tool results, but keeps count,
roles and order). -/
theorem C5_amended_bounding (maxMsgs pruneAfter : ℕ) (file : List Entry)
    (hpos : 0 < maxMsgs)
    (hlen : maxMsgs < (roleMessages (afterLastMarker file)).length) :
    (load_context maxMsgs pruneAfter file).length = maxMsgs ∧
    (load_context maxMsgs pruneAfter file).map Msg.role =
      ((roleMessages (afterLastMarker file)).drop
        ((roleMessages (afterLastMarker file)).length - maxMsgs)).map Msg.role ∧
    load_context maxMsgs pruneAfter file =
      truncatePass pruneAfter ((roleMessages (afterLastMarker file)).drop
        ((roleMessages (afterLastMarker file)).length - maxMsgs)) := by
  have hslice : (if maxMsgs < (roleMessages (afterLastMarker file)).length
      then lastSlice maxMsgs (roleMessages (afterLastMarker file))
      else roleMessages (afterLastMarker file)) =
      (roleMessages (afterLastMarker file)).drop
        ((roleMessages (afterLastMarker file)).length - maxMsgs) := by
    rw [if_pos hlen]
    unfold lastSlice
    rw [if_neg (by omega)]
  have heq : load_context maxMsgs pruneAfter file =
      truncatePass pruneAfter ((roleMessages (afterLastMarker file)).drop
        ((roleMessages (afterLastMarker file)).length - maxMsgs)) := by
    simp only [load_context]
    rw [hslice]
  refine ⟨?_, ?_, heq⟩
  · rw [heq, truncatePass_length, List.length_drop]
    omega
  · rw [heq, truncatePass_map_role]

/-- Counterexample to claim C5 as stated: with maxMessages = 0, a
transcript holding one role-bearing record (more than maxMessages) is
reconstructed to that one record, not to exactly maxMessages = 0 records:
the Python slice messages[-0:] keeps the whole list. -/
theorem C5_counterexample :
    0 < (roleMessages (afterLastMarker [mkRoleContent "user" "hi"])).length ∧
    (load_context 0 15 [mkRoleContent "user" "hi"]).length = 1 := by decide

/-- A transcript with three role-bearing user records. -/
def c5file : List Entry :=
  [mkRoleContent "user" "a", mkRoleContent "user" "b", mkRoleContent "user" "c"]

theorem C5_witness :
    0 < 2 ∧ 2 < (roleMessages (afterLastMarker c5file)).length ∧
    (load_context 2 15 c5file).length = 2 :=
  ⟨by decide, by decide, (C5_amended_bounding 2 15 c5file (by decide) (by decide)).1⟩

theorem length_filter_pos_eq_any (p : α → Bool) (l : List α) :
    decide (0 < (l.filter p).length) = l.any p := by
  induction l with
  | nil => rfl
  | cons x xs ih =>
    cases hpx : p x
    · rw [List.filter_cons, if_neg (by simp [hpx]), List.any_cons, hpx,
        Bool.false_or]
      exact ih
    · rw [List.filter_cons, if_pos (by simp [hpx]), List.any_cons, hpx,
        Bool.true_or]
      simp

theorem filter_filter_length_zero (p q : α → Bool) (l : List α) :
    decide (((l.filter p).filter q).length = 0) =
      l.all (fun x => !(p x) || !(q x)) := by
  induction l with
  | nil => rfl
  | cons x xs ih =>
    cases hp : p x
    · rw [List.filter_cons, if_neg (by simp [hp]), List.all_cons, hp,
        Bool.not_false, Bool.true_or, Bool.true_and]
      exact ih
    · cases hq : q x
      · rw [List.filter_cons, if_pos (by simp [hp]), List.filter_cons,
          if_neg (by simp [hq]), List.all_cons, hp, hq, Bool.not_true,
          Bool.not_false, Bool.false_or, Bool.true_and]
        exact ih
      · rw [List.filter_cons, if_pos (by simp [hp]), List.filter_cons,
          if_pos (by simp [hq]), List.all_cons, hp, hq, Bool.not_true,
          Bool.or_self, Bool.false_and]
        rfl

/-- Claim C2, amended: the compaction marker is inserted exactly when,
with tool calls returned, at least one of them is a write_memory call and
every returned write_memory call succeeds (a single failing write call
suppresses compaction even if others succeed); or, with no tool calls
returned, a non-empty plain-text summary is persisted to the daily log
without error; or the reconstructed context was already empty, in which
case the marker is inserted without any reasoning-service interaction. -/
theorem C2_amended_compaction_marker (messages : List Msg) (resp : DSOutcome) :
    compact_marker_inserted messages resp = compact_marker_amended messages resp := by
  unfold compact_marker_inserted compact_marker_amended
  cases hm : messages.isEmpty
  · rw [if_neg (by simp), Bool.false_or]
    rcases resp with e | ⟨mc, mt⟩
    · rfl
    · cases mt with
      | nil =>
        cases mc with
        | none => rfl
        | some c =>
          by_cases hc : c = ""
          · simp [hc]
          · simp [hc]
      | cons tc tcs =>
        show (decide (0 < ((tc :: tcs).filter (fun t => t.name == "write_memory")).length) &&
            decide ((((tc :: tcs).filter (fun t => t.name == "write_memory")).filter
              writeCallFails).length = 0)) =
          ((tc :: tcs).any (fun t => t.name == "write_memory") &&
            (tc :: tcs).all (fun t => !(t.name == "write_memory") || !(writeCallFails t)))
        rw [length_filter_pos_eq_any, filter_filter_length_zero]
  · simp

/-- One successful write_memory call. -/
def c2goodCall : ToolCall := ⟨"1", "write_memory", some [("content", "fact")]⟩

/-- One failing write_memory call (empty content, so tool_write_memory
returns an ERROR result). -/
def c2badCall : ToolCall := ⟨"2", "write_memory", some [("content", "")]⟩

/-- A non-empty reconstructed context. -/
def c2msgs : List Msg := [⟨"user", some "hello", [], none⟩]

/-- Counterexample to claim C2 as stated: the service returns two
write_memory calls of which one succeeds and one fails; the claim
(at least one success inserts the marker) predicts insertion, but the
code skips compaction because write_failures is nonzero. -/
theorem C2_counterexample :
    compact_marker_inserted c2msgs (.ok ⟨none, [c2goodCall, c2badCall]⟩) = false ∧
    compact_marker_claimed (.ok ⟨none, [c2goodCall, c2badCall]⟩) = true := by decide

/-- Claim C3: when an allowed-tools set is supplied and the requested
name lies outside it, the per-call result text is the fail-closed error
message (in particular it begins with the ERROR marker), and no executor
branch runs (neither a native TOOL_DISPATCH function nor an MCP-routed
call). -/
theorem C3_unauthorized_tool_fails_closed (servers : List String)
    (execN execM : String → List (String × String) → ExecOutcome)
    (A : List String) (tc : ToolCall) (h : tc.name ∉ A) :
    toolCallResult (some A) servers execN execM tc =
      "ERROR: tool '" ++ tc.name ++ "' is not allowed in this context" ∧
    (∃ rest, toolCallResult (some A) servers execN execM tc = "ERROR" ++ rest) ∧
    executorRuns (some A) servers tc.name = false := by
  have hb : blockedBy (some A) tc.name = true := by
    simp only [blockedBy, Bool.not_eq_true']
    exact (Bool.not_eq_true _).mp (by simpa using h)
  refine ⟨?_, ?_, ?_⟩
  · unfold toolCallResult
    rw [if_pos hb]
  · refine ⟨": tool '" ++ tc.name ++ "' is not allowed in this context", ?_⟩
    unfold toolCallResult
    rw [if_pos hb]
    have hlit : ("ERROR: tool '" : String) = "ERROR" ++ ": tool '" := by decide
    rw [hlit, String.append_assoc, String.append_assoc, String.append_assoc]
  · unfold executorRuns
    rw [if_pos hb]

/-- A webhook-context request for the merge_pr tool, which is outside
WEBHOOK_ALLOWED_TOOL_NAMES. -/
def c3call : ToolCall := ⟨"1", "merge_pr", none⟩

theorem C3_witness :
    "merge_pr" ∉ WEBHOOK_ALLOWED_TOOL_NAMES ∧
    executorRuns (some WEBHOOK_ALLOWED_TOOL_NAMES) [] "merge_pr" = false :=
  ⟨by decide,
   (C3_unauthorized_tool_fails_closed [] (fun _ _ => .ret "") (fun _ _ => .ret "")
      WEBHOOK_ALLOWED_TOOL_NAMES c3call (by decide)).2.2⟩

/-- Claim C6: whenever the reasoning-service call of the current
iteration raises (and the loop has fuel left), the invocation returns at
once with the error notice, the notice is the one record appended to the
transcript, and exactly one further reasoning-service call — the failing
one — was made: no retry happens inside the loop. -/
theorem C6_service_failure_ends_invocation (env : LoopEnv) (fuel calls : ℕ)
    (s : List Entry) (e : String) (h : env.oracle calls = .raised e) :
    agentLoopAux env (fuel + 1) calls s =
      ("(DeepSeek API error: " ++ e ++ ")",
       s ++ [mkRoleContent "assistant" ("(DeepSeek API error: " ++ e ++ ")")],
       calls + 1) := by
  unfold agentLoopAux
  rw [h]

/-- An environment whose reasoning service always raises. -/
def c6env : LoopEnv :=
  ⟨fun _ => .raised "boom", none, [], fun _ _ => .ret "", fun _ _ => .ret ""⟩

theorem C6_witness :
    c6env.oracle 0 = .raised "boom" ∧
    agentLoopAux c6env 1 0 [] =
      ("(DeepSeek API error: " ++ "boom" ++ ")",
       [] ++ [mkRoleContent "assistant" ("(DeepSeek API error: " ++ "boom" ++ ")")],
       0 + 1) :=
  ⟨rfl, C6_service_failure_ends_invocation c6env 0 0 [] "boom" rfl⟩

theorem splitWs_step15_expr : splitWs ("*/15 * * * *".toList) =
    [['*', '/', '1', '5'], ['*'], ['*'], ['*'], ['*']] := by decide

theorem splitWs_daily8_expr : splitWs ("0 8 * * *".toList) =
    [['0'], ['8'], ['*'], ['*'], ['*']] := by decide

theorem cron_field_matches_star (v m : Int) : cron_field_matches ['*'] v m = true := rfl

theorem cron_field_matches_step15 (v : Int) :
    cron_field_matches ['*', '/', '1', '5'] v 59 = decide (v % 15 = 0) := by
  show (partMatches ['*', '/', '1', '5'] v 59 || false) = _
  rw [Bool.or_false]
  show ((true && decide (v % 15 = 0)) : Bool) = _
  rw [Bool.true_and]

theorem cron_field_matches_zero (v : Int) :
    cron_field_matches ['0'] v 59 = decide ((0 : Int) = v) := by
  show (partMatches ['0'] v 59 || false) = _
  rw [Bool.or_false]
  rfl

theorem cron_field_matches_eight (v : Int) :
    cron_field_matches ['8'] v 23 = decide ((8 : Int) = v) := by
  show (partMatches ['8'] v 23 || false) = _
  rw [Bool.or_false]
  rfl

/-- Claim C8: for every datetime (with a valid minute value), the
expression */15 * * * * matches exactly the minutes 0, 15, 30 and 45 in
every hour, day, month and weekday, and 0 8 * * * matches exactly hour 8
minute 0. -/
theorem C8_cron_matching (t : PyDateTime) (h : t.minute < 60) :
    (cron_matches "*/15 * * * *" t = true ↔
      (t.minute = 0 ∨ t.minute = 15 ∨ t.minute = 30 ∨ t.minute = 45)) ∧
    (cron_matches "0 8 * * *" t = true ↔ (t.hour = 8 ∧ t.minute = 0)) := by
  constructor
  · show (cron_field_matches ['*', '/', '1', '5'] (t.minute : Int) 59 &&
      cron_field_matches ['*'] (t.hour : Int) 23 &&
      cron_field_matches ['*'] (t.day : Int) 31 &&
      cron_field_matches ['*'] (t.month : Int) 12 &&
      cron_field_matches ['*'] (((t.weekday + 1) % 7 : ℕ) : Int) 7) = true ↔ _
    rw [cron_field_matches_step15, cron_field_matches_star, cron_field_matches_star,
      cron_field_matches_star, cron_field_matches_star]
    simp only [Bool.and_true, decide_eq_true_eq]
    omega
  · show (cron_field_matches ['0'] (t.minute : Int) 59 &&
      cron_field_matches ['8'] (t.hour : Int) 23 &&
      cron_field_matches ['*'] (t.day : Int) 31 &&
      cron_field_matches ['*'] (t.month : Int) 12 &&
      cron_field_matches ['*'] (((t.weekday + 1) % 7 : ℕ) : Int) 7) = true ↔ _
    rw [cron_field_matches_zero, cron_field_matches_eight, cron_field_matches_star,
      cron_field_matches_star, cron_field_matches_star]
    simp only [Bool.and_true, Bool.and_eq_true, decide_eq_true_eq]
    omega

/-- A Monday 08:00 timestamp. -/
def c8time : PyDateTime := ⟨2026, 1, 5, 8, 0, 0⟩

theorem C8_witness :
    c8time.minute < 60 ∧
    (cron_matches "*/15 * * * *" c8time = true ↔
      (c8time.minute = 0 ∨ c8time.minute = 15 ∨ c8time.minute = 30 ∨ c8time.minute = 45)) ∧
    (cron_matches "0 8 * * *" c8time = true ↔ (c8time.hour = 8 ∧ c8time.minute = 0)) :=
  ⟨by decide, C8_cron_matching c8time (by decide)⟩

theorem cronTick_recorded_skips (jobs : List CronJob)
    (lastRun : String → Option String) (now : PyDateTime) (jid : String)
    (h : lastRun jid = some (minute_key now)) :
    (cronTick jobs lastRun now).2 jid = some (minute_key now) ∧
    jid ∉ (cronTick jobs lastRun now).1 := by
  induction jobs generalizing lastRun with
  | nil => exact ⟨h, by simp [cronTick]⟩
  | cons job rest ih =>
    cases hf : jobShouldFire lastRun now job
    · simp only [cronTick, hf]
      rw [if_neg Bool.false_ne_true]
      exact ih lastRun h
    · have hne : job.id ≠ jid := by
        intro heq
        unfold jobShouldFire at hf
        rw [heq, h] at hf
        simp at hf
      have h2 : (fun k => if k = job.id then some (minute_key now) else lastRun k) jid =
          some (minute_key now) := by
        show (if jid = job.id then some (minute_key now) else lastRun jid) =
          some (minute_key now)
        rw [if_neg (fun hh => hne hh.symm)]
        exact h
      have hrec := ih (fun k => if k = job.id then some (minute_key now) else lastRun k) h2
      simp only [cronTick, hf]
      rw [if_pos trivial]
      exact ⟨hrec.1, by
        simp only [List.mem_cons, not_or]
        exact ⟨fun hh => hne hh.symm, hrec.2⟩⟩

theorem cronTick_fired_records (jobs : List CronJob)
    (lastRun : String → Option String) (now : PyDateTime) (jid : String)
    (h : jid ∈ (cronTick jobs lastRun now).1) :
    (cronTick jobs lastRun now).2 jid = some (minute_key now) := by
  induction jobs generalizing lastRun with
  | nil => simp [cronTick] at h
  | cons job rest ih =>
    cases hf : jobShouldFire lastRun now job
    · simp only [cronTick, hf] at h ⊢
      rw [if_neg Bool.false_ne_true] at h ⊢
      exact ih lastRun h
    · simp only [cronTick, hf] at h ⊢
      rw [if_pos trivial] at h ⊢
      rcases List.mem_cons.mp h with heq | hmem
      · have h2 : (fun k => if k = job.id then some (minute_key now) else lastRun k) jid =
            some (minute_key now) := by
          show (if jid = job.id then some (minute_key now) else lastRun jid) =
            some (minute_key now)
          rw [if_pos heq]
        exact (cronTick_recorded_skips rest _ now jid h2).1
      · exact ih (fun k => if k = job.id then some (minute_key now) else lastRun k) hmem

/-- Claim C7: once a job has fired during a scheduler pass and recorded
the current minute key, any later pass whose current minute key is the
same (however often it runs, and whatever the job list then contains)
does not fire that job id again. -/
theorem C7_fire_once_per_minute_key (jobs₁ jobs₂ : List CronJob)
    (lastRun : String → Option String) (now₁ now₂ : PyDateTime) (jid : String)
    (hkey : minute_key now₂ = minute_key now₁)
    (hfired : jid ∈ (cronTick jobs₁ lastRun now₁).1) :
    jid ∉ (cronTick jobs₂ (cronTick jobs₁ lastRun now₁).2 now₂).1 := by
  have h1 := cronTick_fired_records jobs₁ lastRun now₁ jid hfired
  have h2 : (cronTick jobs₁ lastRun now₁).2 jid = some (minute_key now₂) := by
    rw [hkey]
    exact h1
  exact (cronTick_recorded_skips jobs₂ _ now₂ jid h2).2

/-- The morning-status job of DEFAULT_CONFIG. -/
def c7job : CronJob := ⟨"morning-status", "0 8 * * *", "Morning status report.", true⟩

theorem C7_witness :
    minute_key c8time = minute_key c8time ∧
    "morning-status" ∈ (cronTick [c7job] (fun _ => none) c8time).1 ∧
    "morning-status" ∉
      (cronTick [c7job] (cronTick [c7job] (fun _ => none) c8time).2 c8time).1 :=
  ⟨rfl, by decide,
   C7_fire_once_per_minute_key [c7job] [c7job] (fun _ => none) c8time c8time
     "morning-status" rfl (by decide)⟩

theorem string_toList_append (s t : String) : (s ++ t).toList = s.toList ++ t.toList := by
  cases s
  cases t
  rfl

theorem sanitized_char_safe (c : Char) :
    isSafeChar (if isSafeChar c then c else '_') = true := by
  by_cases h : isSafeChar c = true
  · rw [if_pos h]
    exact h
  · rw [if_neg h]
    decide

/-- Claim C10: the transcript and lock file names are derived from the
session key by replacing every character outside [A-Za-z0-9_-] with an
underscore, so the sanitised stem holds only characters of that class —
in particular no path separator and no dot — and both file names contain
no path separator at all: a caller-supplied key can never name a file
outside the sessions directory. -/
theorem C10_session_key_confinement (key : String) :
    ((sanitize_session_key key).toList.all isSafeChar = true) ∧
    '/' ∉ (sessionFileName key).toList ∧
    '/' ∉ (lockFileName key).toList ∧
    '.' ∉ (sanitize_session_key key).toList ∧
    '\\' ∉ (sanitize_session_key key).toList := by
  have hall : (sanitize_session_key key).toList.all isSafeChar = true := by
    show (key.toList.map (fun c => if isSafeChar c then c else '_')).all isSafeChar = true
    rw [List.all_map, List.all_eq_true]
    intro c _
    exact sanitized_char_safe c
  have hmem : ∀ c ∈ (sanitize_session_key key).toList, isSafeChar c = true :=
    List.all_eq_true.mp hall
  have hnotin : ∀ c : Char, isSafeChar c = false → c ∉ (sanitize_session_key key).toList := by
    intro c hc hin
    rw [hmem c hin] at hc
    exact Bool.noConfusion hc
  refine ⟨hall, ?_, ?_, hnotin '.' (by decide), hnotin '\\' (by decide)⟩
  · rw [sessionFileName, string_toList_append]
    intro hin
    rcases List.mem_append.mp hin with hx | hy
    · exact hnotin '/' (by decide) hx
    · revert hy
      decide
  · rw [lockFileName, string_toList_append]
    intro hin
    rcases List.mem_append.mp hin with hx | hy
    · exact hnotin '/' (by decide) hx
    · revert hy
      decide
